import Mathlib

/-!
Verification of the scanr review pipeline: a shallow embedding of the
data model and core operations (worker pool, dead-letter queue, rate
limiter, reviewer retry loop, pipeline collector, exit-code mapper),
with theorems settling the behavioural claims about them.

Conventions of the embedding:
* Go `int`/`int64` values that may be negative are `Int`; counters that
  only grow from zero are `Nat`.
* `time.Duration` and timestamps are integer nanoseconds.
* Go interfaces that hold either a value or `nil` are `Option`.
* Channel effects and panics are explicit outcome constructors.
* Advisory fields not consulted by any modelled operation (float
  confidence, `time.Time` discovery stamps) are omitted.
-/

namespace Scanr

/-! ## Data model (internal/fs, internal/review) -/

/-- `fs.FileInfo` from internal/fs/scanner.go. -/
structure FileInfo where
  path : String
  size : Int := 0
  lines : Int := 0
  languages : String := ""
  relative : String := ""
deriving Repr, DecidableEq

/-- `review.Severity` is a Go string type (internal/review types). -/
abbrev Severity := String

def SeverityCritical : Severity := "critical"

/-- Note the source's `SeverityHigh` constant carries the string value
"warning". -/
def SeverityHigh : Severity := "warning"

def SeverityInfo : Severity := "info"

/-- `review.Issue`; confidence (float64) and the `FoundAt` timestamp are
advisory and never read by the pipeline, so they are omitted. -/
structure Issue where
  filePath : String := ""
  line : Int := 0
  column : Int := 0
  code : String := ""
  title : String := ""
  description : String := ""
  severity : Severity := ""
  category : String := ""
  suggestions : List String := []
deriving Repr, DecidableEq

/-- `review.FileReview`: the `Error` field is a Go string, empty when the
review succeeded. Duration is nanoseconds. -/
structure FileReview where
  file : FileInfo
  issues : List Issue := []
  duration : Int := 0
  error : String := ""
deriving Repr, DecidableEq

/-- `review.ReviewResult` counters plus the per-file reviews. -/
structure ReviewResult where
  totalFiles : Nat := 0
  reviewedFiles : Nat := 0
  totalIssues : Nat := 0
  criticalCount : Nat := 0
  warningCount : Nat := 0
  infoCount : Nat := 0
  fileReviews : List FileReview := []
deriving Repr, DecidableEq

/-! ## Exit-code mapping (internal/output/exitcode.go) -/

/-- `output.DetermineExitCode`: 2 on nil result or criticals, 1 on
warnings, 0 otherwise. The Go nil pointer is `none`. -/
def DetermineExitCode (result : Option ReviewResult) : Int :=
  match result with
  | none => 2
  | some r =>
    if r.criticalCount > 0 then 2
    else if r.warningCount > 0 then 1
    else 0

/-- Helper building a ReviewResult that carries only severity counters. -/
def mkCounts (crit warn info : Nat) : ReviewResult :=
  { criticalCount := crit, warningCount := warn, infoCount := info }

/-! ## Token-bucket rate limiter (pkg/reviewer/ratelimiter.go) -/

/-- `reviewer.RateLimiter` state. `lastRefill` is a timestamp in
nanoseconds; `waitTime` is the advisory per-retry wait (nanoseconds). -/
structure RateLimiter where
  requestsPerMinute : Int
  burst : Int
  tokens : Int
  lastRefill : Int
  waitTime : Int
deriving Repr, DecidableEq

/-- `NewRateLimiter`: a non-positive burst defaults to `rpm/10`, floored
at 1; the bucket starts full (`tokens = burst`). `now` stands for the
`time.Now()` taken at construction. -/
def NewRateLimiter (requestsPerMinute burst : Int) (waitTime now : Int) :
    RateLimiter :=
  let b :=
    if burst ≤ 0 then
      let b' := requestsPerMinute / 10
      if b' < 1 then 1 else b'
    else burst
  { requestsPerMinute := requestsPerMinute, burst := b, tokens := b,
    lastRefill := now, waitTime := waitTime }

/-- `refillTokens`: adds `floor(elapsedSeconds × rpm/60)` tokens, capped
at `burst`, advancing `lastRefill` only when at least one token was
added. Time is in nanoseconds, so the token count added is
`elapsedNs × rpm / 60e9` (integer truncation, as the Go float-to-int
conversion truncates). -/
def RateLimiter.refillTokens (r : RateLimiter) (now : Int) : RateLimiter :=
  let elapsed := now - r.lastRefill
  let tokensToAdd := elapsed * r.requestsPerMinute / (60 * 1000000000)
  if tokensToAdd > 0 then
    let t := r.tokens + tokensToAdd
    let t := if t > r.burst then r.burst else t
    { r with tokens := t, lastRefill := now }
  else r

/-- Outcome of `RateLimiter.Wait`. `granted` is the fast path (a token
was consumed); `grantedAfterSleep` is the slow path, which sleeps
`sleepNs` nanoseconds and then returns success with the state it left
before sleeping; `canceled` is the context-cancellation path. -/
inductive WaitOutcome where
  | granted (r : RateLimiter)
  | grantedAfterSleep (r : RateLimiter) (sleepNs : Int)
  | canceled (r : RateLimiter)
deriving Repr, DecidableEq

/-- `RateLimiter.Wait`: refill, then consume a token if available;
otherwise compute `waitDuration = 1e9 / (rpm/60) = 60e9/rpm` ns and
select between the context completing (`ctxDone`) and the timer. On the
timer path the Go code returns nil without touching the token count. -/
def RateLimiter.Wait (r : RateLimiter) (now : Int) (ctxDone : Bool) :
    WaitOutcome :=
  let r := r.refillTokens now
  if r.tokens > 0 then
    .granted { r with tokens := r.tokens - 1 }
  else
    let waitDuration := 60 * 1000000000 / r.requestsPerMinute
    if ctxDone then .canceled r
    else .grantedAfterSleep r waitDuration

/-- `RateLimiter.Try`: non-blocking acquire. -/
def RateLimiter.Try (r : RateLimiter) (now : Int) : Bool × RateLimiter :=
  let r := r.refillTokens now
  if r.tokens > 0 then (true, { r with tokens := r.tokens - 1 })
  else (false, r)

/-! ## Dead-letter queue (internal/worker/deadletter.go) -/

/-- `worker.Task` as retained by the dead-letter queue: id and file. The
Go struct also carries the result channel and a context, which exist
only as runtime handles and are not consulted by any queue operation. -/
structure Task where
  id : Int
  file : FileInfo
deriving Repr, DecidableEq

/-- `worker.DeadLetter`: a failed task with its last error, a timestamp
(nanoseconds) and the attempt count. -/
structure DeadLetter where
  task : Task
  error : String
  timestamp : Int
  attempts : Int
deriving Repr, DecidableEq

/-- `worker.DeadLetterQueue`: a bounded FIFO slice. The default discard
callback (a log sink) is modelled by reporting evicted entries in the
result of `Push`. -/
structure DeadLetterQueue where
  items : List DeadLetter
  maxSize : Int
deriving Repr, DecidableEq

/-- `worker.NewDeadLetterQueue`. -/
def NewDeadLetterQueue (maxSize : Int) : DeadLetterQueue :=
  { items := [], maxSize := maxSize }

/-- Outcome of a `Push`: either the updated queue together with the
entry handed to the discard callback (if any), or the Go runtime panic
raised by reading `items[0]` on an empty slice. -/
inductive PushResult where
  | ok (q : DeadLetterQueue) (discarded : Option DeadLetter)
  | panicIndexOutOfRange
deriving Repr, DecidableEq

/-- `DeadLetterQueue.Push`: when `len(items) ≥ maxSize` the oldest entry
`items[0]` is passed to the discard callback and dropped, then the new
entry is appended. On an empty slice that branch reads `items[0]` and
panics, which happens exactly when `maxSize ≤ 0`. -/
def DeadLetterQueue.Push (q : DeadLetterQueue) (task : Task) (err : String)
    (now : Int) (attempts : Int) : PushResult :=
  let dl : DeadLetter :=
    { task := task, error := err, timestamp := now, attempts := attempts }
  if (q.items.length : Int) ≥ q.maxSize then
    match q.items with
    | [] => .panicIndexOutOfRange
    | d0 :: rest => .ok { items := rest ++ [dl], maxSize := q.maxSize } (some d0)
  else
    .ok { items := q.items ++ [dl], maxSize := q.maxSize } none

/-- `DeadLetterQueue.Pop`: removes and returns the oldest entry. -/
def DeadLetterQueue.Pop (q : DeadLetterQueue) :
    Option (DeadLetter × DeadLetterQueue) :=
  match q.items with
  | [] => none
  | d :: rest => some (d, { q with items := rest })

/-- Arguments of one `Push` call, used to describe a sequence of pushes. -/
structure PushEntry where
  task : Task
  error : String
  now : Int
  attempts : Int
deriving Repr, DecidableEq

/-- The `DeadLetter` a given `Push` call appends. -/
def PushEntry.toDeadLetter (e : PushEntry) : DeadLetter :=
  { task := e.task, error := e.error, timestamp := e.now,
    attempts := e.attempts }

/-- Pushes a sequence of entries, collecting every entry handed to the
discard callback, or `none` if some push panicked. -/
def pushAll (q : DeadLetterQueue) :
    List PushEntry → Option (DeadLetterQueue × List DeadLetter)
  | [] => some (q, [])
  | e :: es =>
    match q.Push e.task e.error e.now e.attempts with
    | .ok q' d =>
      match pushAll q' es with
      | some (qf, ds) => some (qf, d.toList ++ ds)
      | none => none
    | .panicIndexOutOfRange => none

/-! ## Worker pool (internal/worker/pool.go) -/

def ErrPoolStopped : String := "worker pool stopped"

def ErrPoolBusy : String := "worker pool is too busy"

def ErrInvalidCapacity : String := "invalid worker capacity"

/-- `worker.WorkerPool` state: the buffered submission channel is the
pair of its capacity (`queueCap`, fixed by `make(chan Task, queueSize)`)
and its current contents; `queueClosed` and `stopped` are the atomic
flags; `totalTasks` the submission counter. -/
structure WorkerPool where
  capacity : Int
  queueCap : Int
  queue : List Task
  queueClosed : Bool
  stopped : Bool
  totalTasks : Int
deriving Repr, DecidableEq

/-- `worker.NewWorkerPool`: rejects `capacity ≤ 0`; only a strictly
negative `queueSize` is replaced by the default `2 × capacity` — the
value 0 is kept and yields an unbuffered channel. -/
def NewWorkerPool (capacity queueSize : Int) : Except String WorkerPool :=
  if capacity ≤ 0 then .error ErrInvalidCapacity
  else
    let qs := if queueSize < 0 then capacity * 2 else queueSize
    .ok { capacity := capacity, queueCap := qs, queue := [],
          queueClosed := false, stopped := false, totalTasks := 0 }

/-- Outcome of `WorkerPool.Submit`: success with the updated pool, a Go
error return, or the runtime panic raised by sending on a closed
channel. -/
inductive SubmitOutcome where
  | ok (p : WorkerPool)
  | err (msg : String)
  | panicSendOnClosedChannel
deriving Repr, DecidableEq

/-- `WorkerPool.Submit`: after the `stopped` check, a `select` tries to
send on the task queue with a `ctx.Done()` case and a `default` case.
A send on a closed channel counts as ready and panics when taken, so a
closed queue is not rejected — it panics (the `stopped` flag check does
not observe `queueClosed`). When the channel is open the send is ready
iff the buffer has room; otherwise the ready `ctx.Done()` case or the
`default` case (pool-busy) fires. When several cases are ready Go picks
pseudo-randomly; the model takes them in the order just described,
which is the only scheduling relevant to the claims (a live context). -/
def WorkerPool.Submit (p : WorkerPool) (ctxDone : Bool) (taskID : Int)
    (file : FileInfo) : SubmitOutcome :=
  if p.stopped then .err ErrPoolStopped
  else if p.queueClosed then .panicSendOnClosedChannel
  else if (p.queue.length : Int) < p.queueCap then
    .ok { p with
          queue := p.queue ++ [{ id := taskID, file := file }],
          totalTasks := p.totalTasks + 1 }
  else if ctxDone then .err "context canceled"
  else .err ErrPoolBusy

/-- `WorkerPool.CloseQueue`: rejected once stopped; idempotently marks
the submission channel closed. -/
def WorkerPool.CloseQueue (p : WorkerPool) : Except String WorkerPool :=
  if p.stopped then .error ErrPoolStopped
  else if p.queueClosed then .ok p
  else .ok { p with queueClosed := true }

/-! ## Worker task processing (internal/worker pool, `processTask`) -/

/-- `worker.TaskResult`. `issues` is the `interface{}` payload: `none`
models the nil interface of the two cancellation branches, `some`
models the typed `[]Issue` the live branch always sets. -/
structure TaskResult where
  taskID : Int
  file : FileInfo
  issues : Option (List Issue) := none
  error : Option String := none
  retry : Bool := false
  skipped : Bool := false
deriving Repr, DecidableEq

/-- Status of the worker's merged per-task context (the task context
intersected with the 30-second per-file deadline) at the moment the
review function has returned. -/
inductive CtxStatus where
  | live
  | canceled
  | deadlineExceeded
deriving Repr, DecidableEq

/-- `WorkerPool.processTask` result construction: on deadline expiry a
timeout error with `retry = true`; on any other context completion the
context's error with `retry = false`; otherwise the reviewer outcome
with `retry = (err ≠ nil)`. Delivery uses the panic-swallowing
`safeSend`, which does not alter the result value. -/
def processTask (ctx : CtxStatus) (taskID : Int) (file : FileInfo)
    (outcome : Except String (List Issue)) : TaskResult :=
  match ctx with
  | .deadlineExceeded =>
    { taskID := taskID, file := file,
      error := some "review timed out after 30 seconds", retry := true }
  | .canceled =>
    { taskID := taskID, file := file,
      error := some "context canceled", retry := false }
  | .live =>
    match outcome with
    | .ok issues =>
      { taskID := taskID, file := file, issues := some issues,
        error := none, retry := false }
    | .error e =>
      { taskID := taskID, file := file, issues := none,
        error := some e, retry := true }

/-! ## Pipeline (internal/review/pipeline.go) -/

/-- `review.Config`; `timeoutPerFile` in nanoseconds. -/
structure PipelineConfig where
  maxWorkers : Int
  maxQueueSize : Int
  maxRetries : Int
  timeoutPerFile : Int
  deadLetterSize : Int
  enableMetrics : Bool
deriving Repr, DecidableEq

/-- `review.DefaultConfig`. -/
def DefaultConfig : PipelineConfig :=
  { maxWorkers := 4, maxQueueSize := 100, maxRetries := 2,
    timeoutPerFile := 30 * 1000000000, deadLetterSize := 1000,
    enableMetrics := true }

/-- The clamping `NewPipeline` applies to its config (lines 62-70):
non-positive `MaxWorkers` → 4, non-positive `MaxQueueSize` →
`2 × MaxWorkers`, non-positive `TimeoutPerFile` → 30 s. No other field
is altered — in particular `DeadLetterSize` is passed through as-is. -/
def normalizeConfig (c : PipelineConfig) : PipelineConfig :=
  let c := if c.maxWorkers ≤ 0 then { c with maxWorkers := 4 } else c
  let c :=
    if c.maxQueueSize ≤ 0 then { c with maxQueueSize := c.maxWorkers * 2 }
    else c
  if c.timeoutPerFile ≤ 0 then { c with timeoutPerFile := 30 * 1000000000 }
  else c

/-- The pipeline's owned state at construction. The reviewer itself is a
function supplied to `Run`, so only its presence (`reviewer ≠ nil`) is
checked here. -/
structure PipelineModel where
  config : PipelineConfig
  pool : WorkerPool
  dlq : DeadLetterQueue
deriving Repr, DecidableEq

/-- `review.NewPipeline`: rejects a nil reviewer, normalizes the config,
builds the worker pool and a dead-letter queue of size
`config.DeadLetterSize` (unclamped). -/
def NewPipeline (c : PipelineConfig) (hasReviewer : Bool) :
    Except String PipelineModel :=
  if !hasReviewer then .error "reviewer cannot be nil"
  else
    let c := normalizeConfig c
    match NewWorkerPool c.maxWorkers c.maxQueueSize with
    | .error e => .error ("failed to create worker pool: " ++ e)
    | .ok wp => .ok { config := c, pool := wp,
                      dlq := NewDeadLetterQueue c.deadLetterSize }

/-- The collector's mutable state during `collectResults`: the shared
`ReviewResult` counters, the local `fileReviews` slice, the dead-letter
queue, and the `filesFailed`/`filesRetried` metrics. -/
structure PipelineState where
  result : ReviewResult
  fileReviews : List FileReview
  dlq : DeadLetterQueue
  filesFailed : Int
  filesRetried : Int
deriving Repr, DecidableEq

/-- One step of the severity-counting loop of `processTaskResult`
(lines 238-250): `TotalIssues` is incremented for every issue, and then
exactly one of the three severity buckets — or none, when the severity
string matches no declared constant. -/
def countIssue (r : ReviewResult) (issue : Issue) : ReviewResult :=
  let r := { r with totalIssues := r.totalIssues + 1 }
  if issue.severity = SeverityCritical then
    { r with criticalCount := r.criticalCount + 1 }
  else if issue.severity = SeverityHigh then
    { r with warningCount := r.warningCount + 1 }
  else if issue.severity = SeverityInfo then
    { r with infoCount := r.infoCount + 1 }
  else r

/-- `pipeline.processTaskResult`: on an error, record it on the
FileReview, bump `filesFailed`, and push to the dead-letter queue iff
`retry` is set (a push on a queue of non-positive size panics, which
the `Option` models); on success, run the severity-counting loop and
bump `reviewedFiles`. The type assertion `Issues.([]Issue)` is total
here because the worker sets a typed `[]Issue` on every nil-error
result; the nil-interface fallback is `[]`. `now` is the push
timestamp. -/
def processTaskResult (now : Int) (s : PipelineState) (tr : TaskResult) :
    Option PipelineState :=
  match tr.error with
  | some e =>
    let fr : FileReview := { file := tr.file, error := e }
    let s := { s with filesFailed := s.filesFailed + 1 }
    if tr.retry then
      match s.dlq.Push { id := tr.taskID, file := tr.file } e now 1 with
      | .ok dlq' _ =>
        some { s with dlq := dlq', filesRetried := s.filesRetried + 1,
                      fileReviews := s.fileReviews ++ [fr] }
      | .panicIndexOutOfRange => none
    else
      some { s with fileReviews := s.fileReviews ++ [fr] }
  | none =>
    let issues := tr.issues.getD []
    let fr : FileReview := { file := tr.file, issues := issues }
    let result := issues.foldl countIssue
      { s.result with reviewedFiles := s.result.reviewedFiles + 1 }
    some { s with result := result, fileReviews := s.fileReviews ++ [fr] }

/-- `pipeline.collectResults`: folds `processTaskResult` over the task
results read from the result channel, in their delivery order. -/
def collectResults (now : Int) (s : PipelineState) :
    List TaskResult → Option PipelineState
  | [] => some s
  | tr :: trs =>
    match processTaskResult now s tr with
    | some s' => collectResults now s' trs
    | none => none

/-- `pipeline.submitTasks`: slices `files` into consecutive batches of
`batchSize = 2 × MaxWorkers` and hands each batch to
`WorkerPool.SubmitBatch`, which submits each file with the batch-LOCAL
index of its `for i, file := range files` loop as the task id — so ids
restart at 0 for every batch and repeat across batches. The result
lists the accepted submissions as (id, file) pairs in submission
order. For `batchSize ≥ 1`, `rest.drop (batchSize - 1)` is exactly the
Go loop's next slice `files[i+batchSize:]`; the pipeline always calls
this with `batchSize ≥ 2`, since `MaxWorkers` is clamped to ≥ 1. -/
def submitTasksModel (batchSize : Nat) : List FileInfo → List (Nat × FileInfo)
  | [] => []
  | f :: rest =>
    ((f :: rest).take batchSize).enum
      ++ submitTasksModel batchSize (rest.drop (batchSize - 1))
termination_by files => files.length
decreasing_by
  simp only [List.length_drop, List.length_cons]
  omega

/-- The task results a completed, uncancelled run delivers: exactly one
per accepted submission, produced by a worker whose merged context
stayed live, carrying the submission's (batch-local) task id and the
deterministic reviewer's outcome for its file. Delivery order is left
to the caller (there is no ordering guarantee), so theorems quantify
over permutations. -/
def taskResultsOf (batchSize : Nat)
    (reviewer : FileInfo → Except String (List Issue))
    (files : List FileInfo) : List TaskResult :=
  (submitTasksModel batchSize files).map fun p =>
    processTask .live (Int.ofNat p.1) p.2 (reviewer p.2)

/-- The collector's initial state in `Run`: zeroed counters, an empty
review slice, and the pipeline's dead-letter queue of the configured
size. -/
def initPipelineState (dlqSize : Int) : PipelineState :=
  { result := {}, fileReviews := [], dlq := NewDeadLetterQueue dlqSize,
    filesFailed := 0, filesRetried := 0 }

/-! ## HTTP reviewer retry loop (pkg/reviewer/openai.go `ReviewFile`;
the Gemini and Anthropic variants share the identical loop) -/

/-- Substring containment on character lists (`strings.Contains`). -/
def charsContain (haystack pattern : List Char) : Bool :=
  match haystack with
  | [] => pattern.isEmpty
  | _ :: t => pattern.isPrefixOf haystack || charsContain t pattern

/-- `strings.Contains s substr`. -/
def strContains (s substr : String) : Bool :=
  charsContain s.toList substr.toList

/-- The retryable-error substrings of `shouldRetry`. -/
def retryableErrors : List String :=
  ["timeout", "deadline exceeded", "network", "rate limit",
   "too many requests", "429", "503", "504", "temporary", "unavailable"]

/-- `strings.ToLower`, character-wise (every string involved is ASCII,
for which `Char.toLower` agrees with Go's Unicode lowering). -/
def stringToLower (s : String) : String :=
  String.mk (s.data.map Char.toLower)

/-- `shouldRetry`: case-insensitive substring match of the error text
against the retryable list. -/
def shouldRetry (errStr : String) : Bool :=
  retryableErrors.any fun retryable =>
    strContains (stringToLower errStr) retryable

/-- Observable trace of one `ReviewFile` retry loop: how many API
requests were issued (one rate-limiter permit is acquired immediately
before each), how many retries `recordRetry` counted, the back-off
sleeps taken (nanoseconds), and the final outcome. -/
structure ReviewLoopTrace where
  calls : Nat
  retriesRecorded : Nat
  sleeps : List Int
  result : Except String (List Issue)
deriving Repr

/-- The `for attempt := 0; attempt <= maxRetries; attempt++` loop of
`ReviewFile`, from attempt index `attempt`, with a live context. The
structural argument `remaining` is `maxRetries - attempt`, the number
of loop iterations still permitted after the current one, so
`remaining = 0` is the final attempt. `api` gives the outcome of the
attempt-th `makeAPIRequest`. On success the loop breaks. On an error
with `attempt < maxRetries` the loop always reaches the next iteration:
when `shouldRetry` holds it first records a retry and sleeps
`waitTime × (attempt+1)`, and when it does not hold the `if` falls
through to the loop's post-statement — there is no break, so the next
attempt runs anyway. Only at `attempt = maxRetries` does an error leave
the loop. -/
def reviewLoopFrom (api : Nat → Except String (List Issue))
    (waitTime : Int) : (attempt remaining : Nat) → ReviewLoopTrace
  | attempt, 0 =>
    match api attempt with
    | .ok issues =>
      { calls := 1, retriesRecorded := 0, sleeps := [], result := .ok issues }
    | .error e =>
      { calls := 1, retriesRecorded := 0, sleeps := [], result := .error e }
  | attempt, remaining + 1 =>
    match api attempt with
    | .ok issues =>
      { calls := 1, retriesRecorded := 0, sleeps := [], result := .ok issues }
    | .error e =>
      let retryable := shouldRetry e
      let rest := reviewLoopFrom api waitTime (attempt + 1) remaining
      { calls := rest.calls + 1,
        retriesRecorded := rest.retriesRecorded + (if retryable then 1 else 0),
        sleeps :=
          (if retryable then [waitTime * (Int.ofNat attempt + 1)] else [])
            ++ rest.sleeps,
        result := rest.result }

/-- `ReviewFile`'s retry phase: the loop from attempt 0 (so with
`maxRetries` further iterations permitted), with the final error
wrapped as `failed to review file after N attempts`. -/
def ReviewFileRetry (maxRetries : Nat) (waitTime : Int)
    (api : Nat → Except String (List Issue)) : ReviewLoopTrace :=
  let t := reviewLoopFrom api waitTime 0 maxRetries
  match t.result with
  | .ok issues => { t with result := Except.ok issues }
  | .error e =>
    let msg := "failed to review file after " ++ toString (maxRetries + 1)
      ++ " attempts: " ++ e
    { t with result := Except.error msg }

/-! ## Specification-side predicates -/

/-- The severity-arithmetic invariant of the spec:
`total_issues = critical + warning + info`. -/
def severityInvariant (r : ReviewResult) : Prop :=
  r.totalIssues = r.criticalCount + r.warningCount + r.infoCount

instance (r : ReviewResult) : Decidable (severityInvariant r) := by
  unfold severityInvariant; infer_instance

/-- The issue's severity string is one of the three declared constants. -/
def issueSeverityKnown (i : Issue) : Prop :=
  i.severity = SeverityCritical ∨ i.severity = SeverityHigh
    ∨ i.severity = SeverityInfo

instance (i : Issue) : Decidable (issueSeverityKnown i) := by
  unfold issueSeverityKnown; infer_instance

/-- All issues a task result carries have a declared severity. -/
def taskResultSeveritiesKnown (tr : TaskResult) : Prop :=
  ∀ i ∈ tr.issues.getD [], issueSeverityKnown i

instance (tr : TaskResult) : Decidable (taskResultSeveritiesKnown tr) := by
  unfold taskResultSeveritiesKnown; infer_instance

end Scanr

/-! ## Claim theorems -/

namespace Scanr

/-- C4 — the exit-code mapping returns 2 for a nil result or a result with
criticals, else 1 when warnings are present, else 0; info-only results map
to 0, and the concrete table {0,0,0}→0, {info:5}→0, {warn:1}→1,
{crit:1,warn:10}→2, nil→2 holds. -/
theorem C4_exit_code_mapping :
    (∀ r : ReviewResult,
      DetermineExitCode (some r) =
        if 0 < r.criticalCount then 2 else if 0 < r.warningCount then 1 else 0)
    ∧ DetermineExitCode none = 2
    ∧ (∀ info : Nat, DetermineExitCode (some (mkCounts 0 0 info)) = 0)
    ∧ DetermineExitCode (some (mkCounts 0 0 0)) = 0
    ∧ DetermineExitCode (some (mkCounts 0 0 5)) = 0
    ∧ DetermineExitCode (some (mkCounts 0 1 0)) = 1
    ∧ DetermineExitCode (some (mkCounts 1 10 0)) = 2 := by
  refine ⟨fun r => rfl, rfl, fun info => rfl, rfl, rfl, rfl, rfl⟩

/-- C2 — the code contradicts the claim's fail-immediately clause: with
`maxRetries = 2` and a stub API that always fails with a non-retryable
HTTP 401 error, `shouldRetry` is false for that error, yet the retry
loop issues 3 API invocations (acquiring a permit before each), because
the loop body has no break on the non-retryable path — it only skips
the back-off sleep (0 retries recorded, no sleeps) and then re-enters
the loop until the attempt budget is exhausted. -/
theorem C2_nonretryable_error_is_reattempted :
    shouldRetry "OpenAI API returned status 401: Unauthorized" = false
    ∧ (ReviewFileRetry 2 1000000000
        (fun _ => Except.error
          "OpenAI API returned status 401: Unauthorized")).calls = 3
    ∧ (ReviewFileRetry 2 1000000000
        (fun _ => Except.error
          "OpenAI API returned status 401: Unauthorized")).retriesRecorded = 0
    ∧ (ReviewFileRetry 2 1000000000
        (fun _ => Except.error
          "OpenAI API returned status 401: Unauthorized")).sleeps = [] := by
  refine ⟨by decide, by decide, by decide, by decide⟩

/-- C5 counterexample — a successful `Wait` that consumed no token: with
`rpm = 60, burst = 1` and an empty bucket, `Wait` returns success (after
a 1 s sleep) with the limiter state unchanged — its token count is 0
both before and after, so no permit was consumed, refuting the claim
that every successful blocking acquire consumes exactly one token. -/
theorem C5_counterexample_success_without_consuming :
    RateLimiter.Wait
        { requestsPerMinute := 60, burst := 1, tokens := 0,
          lastRefill := 0, waitTime := 0 } 0 false
      = .grantedAfterSleep
          { requestsPerMinute := 60, burst := 1, tokens := 0,
            lastRefill := 0, waitTime := 0 } 1000000000 := by
  decide

/-- C5 amended — after refilling: if a token is available, `Wait`
consumes exactly one and returns success; if none is available and the
context completes first, it returns the cancellation error with no
token consumed; if none is available and the timer fires first, it
sleeps `60e9/rpm` ns and returns success WITHOUT consuming a token
(the refilled state is returned unchanged). -/
theorem C5_wait_behaviour (r : RateLimiter) (now : Int) (ctxDone : Bool) :
    (0 < (r.refillTokens now).tokens →
      r.Wait now ctxDone
        = .granted { r.refillTokens now with
                     tokens := (r.refillTokens now).tokens - 1 })
    ∧ ((r.refillTokens now).tokens ≤ 0 → ctxDone = true →
      r.Wait now ctxDone = .canceled (r.refillTokens now))
    ∧ ((r.refillTokens now).tokens ≤ 0 → ctxDone = false →
      r.Wait now ctxDone
        = .grantedAfterSleep (r.refillTokens now)
            (60 * 1000000000 / (r.refillTokens now).requestsPerMinute)) := by
  unfold RateLimiter.Wait
  refine ⟨fun h => ?_, fun h hc => ?_, fun h hc => ?_⟩
  · rw [if_pos h]
  · rw [if_neg (by omega), hc]; rfl
  · rw [if_neg (by omega), hc]; rfl

/-- C5 witness — the amended theorem at a concrete limiter: a full
bucket of one token, fast path consumes it. -/
theorem C5_wait_behaviour_witness :
    RateLimiter.Wait
        { requestsPerMinute := 60, burst := 1, tokens := 1,
          lastRefill := 0, waitTime := 0 } 0 false
      = .granted
          { requestsPerMinute := 60, burst := 1, tokens := 0,
            lastRefill := 0, waitTime := 0 } := by
  exact (C5_wait_behaviour
    { requestsPerMinute := 60, burst := 1, tokens := 1,
      lastRefill := 0, waitTime := 0 } 0 false).1 (by decide)

/-- C6 counterexample — `NewWorkerPool 4 0` succeeds with a submission
queue bound of 0 (an unbuffered channel), not the claimed default
`2 × capacity = 8`: only strictly negative queue sizes are defaulted. -/
theorem C6_counterexample_queue_size_zero :
    NewWorkerPool 4 0
      = .ok { capacity := 4, queueCap := 0, queue := [],
              queueClosed := false, stopped := false, totalTasks := 0 }
    ∧ (0 : Int) ≠ 4 * 2 := by
  refine ⟨rfl, by decide⟩

/-- C6 amended — construction fails with the invalid-capacity error for
every `capacity ≤ 0` and succeeds for every `capacity > 0`; a strictly
negative `queueSize` defaults the queue bound to `2 × capacity`, while
`queueSize = 0` is kept as an unbuffered (bound-0) queue. -/
theorem C6_new_worker_pool (capacity queueSize : Int) :
    (capacity ≤ 0 →
      NewWorkerPool capacity queueSize = .error ErrInvalidCapacity)
    ∧ (0 < capacity →
      NewWorkerPool capacity queueSize
        = .ok { capacity := capacity,
                queueCap := if queueSize < 0 then capacity * 2 else queueSize,
                queue := [], queueClosed := false, stopped := false,
                totalTasks := 0 }) := by
  unfold NewWorkerPool
  refine ⟨fun h => ?_, fun h => ?_⟩
  · rw [if_pos h]
  · rw [if_neg (by omega)]

/-- C6 witness — the amended theorem at concrete capacities: capacity 0
is rejected; capacity 4 with queueSize −1 gets the default bound 8. -/
theorem C6_new_worker_pool_witness :
    NewWorkerPool 0 5 = .error ErrInvalidCapacity
    ∧ NewWorkerPool 4 (-1)
      = .ok { capacity := 4, queueCap := 8, queue := [],
              queueClosed := false, stopped := false, totalTasks := 0 } := by
  exact ⟨(C6_new_worker_pool 0 5).1 (by decide),
         (C6_new_worker_pool 4 (-1)).2 (by decide)⟩

/-- C8 — a pure context cancellation (merged context done, not by
deadline) makes the worker deliver a TaskResult carrying the
cancellation error with `retry = false`, and the collector records the
error on the FileReview without pushing anything to the dead-letter
queue: the resulting state differs from the input state only in
`filesFailed` and the appended FileReview. -/
theorem C8_cancellation_never_reaches_dlq (tid : Int) (f : FileInfo)
    (outcome : Except String (List Issue)) (now : Int) (s : PipelineState) :
    (processTask .canceled tid f outcome).retry = false
    ∧ (processTask .canceled tid f outcome).error = some "context canceled"
    ∧ processTaskResult now s (processTask .canceled tid f outcome)
        = some { s with
                 filesFailed := s.filesFailed + 1,
                 fileReviews := s.fileReviews
                   ++ [{ file := f, error := "context canceled" }] }
    ∧ (processTaskResult now s (processTask .canceled tid f outcome)).map
        PipelineState.dlq = some s.dlq := by
  refine ⟨rfl, rfl, rfl, rfl⟩

/-- C9 — after `CloseQueue` succeeds on a pool that has not been
stopped, a `Submit` with a live context panics by sending on the closed
submission channel; it does not return the pool-stopped error, because
`Submit`'s stopped-flag check does not observe `queueClosed`. -/
theorem C9_submit_after_close_queue_panics (p q : WorkerPool)
    (hstop : p.stopped = false) (hclose : p.CloseQueue = .ok q)
    (tid : Int) (f : FileInfo) :
    q.Submit false tid f = .panicSendOnClosedChannel
    ∧ q.Submit false tid f ≠ .err ErrPoolStopped := by
  have hq : q.stopped = false ∧ q.queueClosed = true := by
    unfold WorkerPool.CloseQueue at hclose
    rw [hstop] at hclose
    simp only [Bool.false_eq_true, if_false] at hclose
    by_cases hc : p.queueClosed
    · rw [if_pos hc] at hclose
      cases hclose
      exact ⟨hstop, hc⟩
    · rw [if_neg hc] at hclose
      cases hclose
      exact ⟨rfl, rfl⟩
  have : q.Submit false tid f = .panicSendOnClosedChannel := by
    unfold WorkerPool.Submit
    rw [hq.1, hq.2]
    simp
  exact ⟨this, by rw [this]; intro hcontra; cases hcontra⟩

/-- C9 witness — the theorem at a freshly constructed 2-worker pool. -/
theorem C9_submit_after_close_queue_panics_witness :
    WorkerPool.Submit
        { capacity := 2, queueCap := 5, queue := [], queueClosed := true,
          stopped := false, totalTasks := 0 } false 0 { path := "a" }
      = .panicSendOnClosedChannel
    ∧ WorkerPool.Submit
        { capacity := 2, queueCap := 5, queue := [], queueClosed := true,
          stopped := false, totalTasks := 0 } false 0 { path := "a" }
      ≠ .err ErrPoolStopped := by
  exact C9_submit_after_close_queue_panics
    { capacity := 2, queueCap := 5, queue := [], queueClosed := false,
      stopped := false, totalTasks := 0 }
    { capacity := 2, queueCap := 5, queue := [], queueClosed := true,
      stopped := false, totalTasks := 0 }
    rfl rfl 0 { path := "a" }

/-- One severity-counting step preserves the invariant when the issue's
severity is one of the declared constants. -/
theorem countIssue_invariant (r : ReviewResult) (i : Issue)
    (hr : severityInvariant r) (hi : issueSeverityKnown i) :
    severityInvariant (countIssue r i) := by
  unfold severityInvariant at hr ⊢
  unfold countIssue
  rcases hi with h | h | h <;>
    simp only [h, SeverityCritical, SeverityHigh, SeverityInfo,
      if_pos, if_neg, String.reduceEq, ite_true, ite_false,
      reduceIte] <;>
    omega

/-- Folding the severity-counting loop over known-severity issues
preserves the invariant. -/
theorem foldl_countIssue_invariant (issues : List Issue) :
    ∀ r : ReviewResult, severityInvariant r →
      (∀ i ∈ issues, issueSeverityKnown i) →
      severityInvariant (issues.foldl countIssue r) := by
  induction issues with
  | nil => intro r hr _; simpa using hr
  | cons i is ih =>
    intro r hr hall
    simp only [List.foldl_cons]
    exact ih _ (countIssue_invariant r i hr (hall i (by simp)))
      (fun j hj => hall j (by simp [hj]))

/-- Processing one task result preserves the severity invariant when
the result's issues all carry declared severities (the error branch
leaves every counter of `result` untouched). -/
theorem processTaskResult_invariant (now : Int) (s : PipelineState)
    (tr : TaskResult) (s' : PipelineState)
    (hr : severityInvariant s.result)
    (hk : taskResultSeveritiesKnown tr)
    (h : processTaskResult now s tr = some s') :
    severityInvariant s'.result := by
  obtain ⟨tid, file, issuesOpt, errOpt, retry, skipped⟩ := tr
  cases errOpt with
  | none =>
    simp only [processTaskResult, Option.some.injEq] at h
    subst h
    exact foldl_countIssue_invariant _ _
      (by simpa [severityInvariant] using hr) hk
  | some e =>
    cases retry with
    | false =>
      simp only [processTaskResult, Bool.false_eq_true, if_false,
        Option.some.injEq] at h
      subst h
      exact hr
    | true =>
      simp only [processTaskResult, if_true, if_pos] at h
      rcases hpush : s.dlq.Push { id := tid, file := file } e now 1
        with ⟨q', d⟩ | _
      · rw [hpush] at h
        simp only [Option.some.injEq] at h
        subst h
        exact hr
      · rw [hpush] at h
        cases h

/-- C3 counterexample — one successful task result carrying a single
issue whose severity string is "high" (a value the lenient line-oriented
parser can emit) drives the aggregate to `TotalIssues = 1` while
`CriticalCount + WarningCount + InfoCount = 0`: the counting switch has
no branch for unknown severities, so the claimed equality fails after
processing that task result. -/
theorem C3_counterexample_unknown_severity :
    (processTaskResult 0 (initPipelineState 1000)
        { taskID := 0, file := { path := "f" },
          issues := some [{ severity := "high" }] }).map
        (fun s => (s.result.totalIssues,
          s.result.criticalCount + s.result.warningCount
            + s.result.infoCount))
      = some (1, 0) := by
  decide

/-- C3 amended — the equality `TotalIssues = CriticalCount +
WarningCount + InfoCount` holds and is preserved after each individual
task result, PROVIDED every issue of every successful task result
carries one of the declared severity strings {critical, warning, info};
an issue with any other severity increments `TotalIssues` without
incrementing any bucket. The first conjunct is the per-step
preservation, the second the preservation over a whole collected
sequence. -/
theorem C3_severity_arithmetic :
    (∀ (now : Int) (s : PipelineState) (tr : TaskResult)
        (s' : PipelineState),
      severityInvariant s.result → taskResultSeveritiesKnown tr →
      processTaskResult now s tr = some s' →
      severityInvariant s'.result)
    ∧ (∀ (now : Int) (s : PipelineState) (trs : List TaskResult)
        (s' : PipelineState),
      severityInvariant s.result →
      (∀ tr ∈ trs, taskResultSeveritiesKnown tr) →
      collectResults now s trs = some s' →
      severityInvariant s'.result) := by
  refine ⟨processTaskResult_invariant, ?_⟩
  intro now s trs
  induction trs generalizing s with
  | nil =>
    intro s' hr _ h
    simp only [collectResults, Option.some.injEq] at h
    subst h
    exact hr
  | cons tr trs ih =>
    intro s' hr hall h
    simp only [collectResults] at h
    rcases hp : processTaskResult now s tr with _ | s₁
    · rw [hp] at h; cases h
    · rw [hp] at h
      exact ih s₁ s'
        (processTaskResult_invariant now s tr s₁ hr (hall tr (by simp)) hp)
        (fun t ht => hall t (by simp [ht])) h

/-- C3 witness — the amended theorem applied to one concrete
known-severity task result: a single critical issue keeps the equality
(both sides 1). -/
theorem C3_severity_arithmetic_witness :
    severityInvariant
      { totalFiles := 0, reviewedFiles := 1, totalIssues := 1,
        criticalCount := 1, warningCount := 0, infoCount := 0,
        fileReviews := [] } := by
  exact C3_severity_arithmetic.2 0 (initPipelineState 1000)
    [{ taskID := 0, file := { path := "f" },
       issues := some [{ severity := "critical" }] }]
    { result :=
        { totalFiles := 0, reviewedFiles := 1, totalIssues := 1,
          criticalCount := 1, warningCount := 0, infoCount := 0,
          fileReviews := [] },
      fileReviews :=
        [{ file := { path := "f" },
           issues := [{ severity := "critical" }] }],
      dlq := NewDeadLetterQueue 1000,
      filesFailed := 0, filesRetried := 0 }
    (by decide) (by decide) (by decide)

/-- While the queue has room for the whole batch, `pushAll` appends the
entries in order and never invokes the discard callback. -/
theorem pushAll_no_overflow :
    ∀ (es : List PushEntry) (q : DeadLetterQueue),
      (q.items.length : Int) + es.length ≤ q.maxSize →
      pushAll q es
        = some ({ items := q.items ++ es.map PushEntry.toDeadLetter,
                  maxSize := q.maxSize }, []) := by
  intro es
  induction es with
  | nil => intro q h; simp [pushAll]
  | cons e es ih =>
    intro q h
    have hlt : ¬ ((q.items.length : Int) ≥ q.maxSize) := by
      simp only [List.length_cons] at h
      push_cast at h
      omega
    have hpush : q.Push e.task e.error e.now e.attempts
        = .ok { items := q.items ++ [e.toDeadLetter],
                maxSize := q.maxSize } none := by
      unfold DeadLetterQueue.Push
      rw [if_neg hlt]
      rfl
    have hle : (((q.items ++ [e.toDeadLetter]).length : Int)
        + es.length ≤ q.maxSize) := by
      simp only [List.length_cons] at h
      simp only [List.length_append, List.length_cons, List.length_nil]
      push_cast at h ⊢
      omega
    simp only [pushAll, hpush]
    rw [ih { items := q.items ++ [e.toDeadLetter],
             maxSize := q.maxSize } hle]
    simp [List.append_assoc]

/-- `pushAll` over an appended batch runs the two halves in sequence
and concatenates their discard reports. -/
theorem pushAll_append (xs ys : List PushEntry) :
    ∀ q : DeadLetterQueue,
      pushAll q (xs ++ ys)
        = match pushAll q xs with
          | some (q', ds) =>
            match pushAll q' ys with
            | some (qf, ds') => some (qf, ds ++ ds')
            | none => none
          | none => none := by
  induction xs with
  | nil =>
    intro q
    simp only [List.nil_append, pushAll]
    cases hy : pushAll q ys with
    | none => simp
    | some p =>
      obtain ⟨qf, ds⟩ := p
      simp
  | cons e xs ih =>
    intro q
    simp only [List.cons_append, pushAll]
    cases hpush : q.Push e.task e.error e.now e.attempts with
    | panicIndexOutOfRange => simp
    | ok q' d =>
      dsimp only
      rw [show xs.append ys = xs ++ ys from rfl, ih q']
      cases hx : pushAll q' xs with
      | none => simp
      | some p =>
        obtain ⟨q'', ds⟩ := p
        cases hy : pushAll q'' ys with
        | none => simp [hy]
        | some p2 =>
          obtain ⟨qf, ds'⟩ := p2
          simp [hy, List.append_assoc]

/-- C7 — on a dead-letter queue of capacity `maxSize ≥ 1`, pushing
`maxSize + 1` entries succeeds (no panic), retains exactly the newest
`maxSize` entries in FIFO push order, and invokes the discard callback
exactly once, with the evicted oldest entry as its argument. -/
theorem C7_dlq_overflow_evicts_oldest (m : Nat) (es : List PushEntry)
    (hm : 1 ≤ m) (hlen : es.length = m + 1) :
    pushAll (NewDeadLetterQueue (m : Int)) es
      = some ({ items := (es.map PushEntry.toDeadLetter).drop 1,
                maxSize := (m : Int) },
              (es.map PushEntry.toDeadLetter).take 1) := by
  obtain ⟨front, lst, rfl⟩ : ∃ front lst, es = front ++ [lst] := by
    rcases List.eq_nil_or_concat es with hnil | ⟨front, lst, hes⟩
    · rw [hnil] at hlen; simp at hlen
    · exact ⟨front, lst, by simpa [List.concat_eq_append] using hes⟩
  have hfront : front.length = m := by
    simpa using hlen
  rw [pushAll_append]
  rw [pushAll_no_overflow front (NewDeadLetterQueue (m : Int))
    (by simp [NewDeadLetterQueue, hfront])]
  cases front with
  | nil => simp at hfront; omega
  | cons f0 fr =>
    have hlenfr : ((f0.toDeadLetter :: fr.map PushEntry.toDeadLetter).length
        : Int) ≥ (m : Int) := by
      simp only [List.length_cons, List.length_map]
      simp only [List.length_cons] at hfront
      push_cast
      omega
    have hpush : DeadLetterQueue.Push
        { items := f0.toDeadLetter :: fr.map PushEntry.toDeadLetter,
          maxSize := (m : Int) } lst.task lst.error lst.now lst.attempts
        = .ok { items := fr.map PushEntry.toDeadLetter
                  ++ [lst.toDeadLetter], maxSize := (m : Int) }
            (some f0.toDeadLetter) := by
      unfold DeadLetterQueue.Push
      rw [if_pos hlenfr]
      rfl
    simp only [List.map_cons, NewDeadLetterQueue, List.nil_append]
    simp only [pushAll, hpush]
    simp [List.map_append]

/-- C7 witness — the theorem at capacity 1 with two concrete entries:
the first entry is evicted and reported to the callback, the second is
retained. -/
theorem C7_dlq_overflow_evicts_oldest_witness :
    pushAll (NewDeadLetterQueue (1 : Nat))
        [{ task := { id := 0, file := { path := "a" } }, error := "e1",
           now := 0, attempts := 1 },
         { task := { id := 1, file := { path := "b" } }, error := "e2",
           now := 0, attempts := 1 }]
      = some ({ items := [{ task := { id := 1, file := { path := "b" } },
                            error := "e2", timestamp := 0, attempts := 1 }],
                maxSize := (1 : Nat) },
              [{ task := { id := 0, file := { path := "a" } },
                 error := "e1", timestamp := 0, attempts := 1 }]) := by
  exact C7_dlq_overflow_evicts_oldest 1
    [{ task := { id := 0, file := { path := "a" } }, error := "e1",
       now := 0, attempts := 1 },
     { task := { id := 1, file := { path := "b" } }, error := "e2",
       now := 0, attempts := 1 }]
    (by decide) (by decide)

/-- Normalization leaves the dead-letter size untouched. -/
theorem normalizeConfig_deadLetterSize (c : PipelineConfig) :
    (normalizeConfig c).deadLetterSize = c.deadLetterSize := by
  simp only [normalizeConfig]
  split <;> split <;> split <;> rfl

/-- C10 — a dead-letter queue of non-positive capacity panics on its
first (and hence every) push, because the overflow branch is taken on
the empty slice and reads `items[0]`; and pipeline construction passes
`DeadLetterSize` through unclamped, so a pipeline built from a config
with a non-positive `DeadLetterSize` owns exactly such a queue, making
every failed-task push panic. -/
theorem C10_nonpositive_dlq_push_panics (m : Int) (hm : m ≤ 0) :
    (∀ (t : Task) (e : String) (now att : Int),
      (NewDeadLetterQueue m).Push t e now att = .panicIndexOutOfRange)
    ∧ (∀ (c : PipelineConfig) (pm : PipelineModel),
      c.deadLetterSize = m → NewPipeline c true = .ok pm →
      pm.dlq = NewDeadLetterQueue m
        ∧ ∀ (t : Task) (e : String) (now att : Int),
          pm.dlq.Push t e now att = .panicIndexOutOfRange) := by
  have hpanic : ∀ (t : Task) (e : String) (now att : Int),
      (NewDeadLetterQueue m).Push t e now att = .panicIndexOutOfRange := by
    intro t e now att
    unfold NewDeadLetterQueue DeadLetterQueue.Push
    rw [if_pos (by simp only [List.length_nil, Nat.cast_zero]; omega)]
  refine ⟨hpanic, ?_⟩
  intro c pm hsize hok
  have hdlq : pm.dlq = NewDeadLetterQueue c.deadLetterSize := by
    unfold NewPipeline at hok
    simp only [Bool.not_true, Bool.false_eq_true, if_false] at hok
    rcases hwp : NewWorkerPool (normalizeConfig c).maxWorkers
        (normalizeConfig c).maxQueueSize with e | wp
    · rw [hwp] at hok; cases hok
    · rw [hwp] at hok
      cases hok
      simp [normalizeConfig_deadLetterSize]
  rw [hdlq, hsize]
  exact ⟨rfl, hpanic⟩

/-- C10 witness — the theorem at `DeadLetterSize = 0` with the default
worker counts: construction succeeds and the owned queue's first push
panics. -/
theorem C10_nonpositive_dlq_push_panics_witness :
    (NewDeadLetterQueue (0 : Int)).Push
        { id := 0, file := { path := "a" } } "boom" 0 1
      = .panicIndexOutOfRange
    ∧ (NewPipeline
        { maxWorkers := 4, maxQueueSize := 100, maxRetries := 2,
          timeoutPerFile := 30 * 1000000000, deadLetterSize := 0,
          enableMetrics := true } true).map PipelineModel.dlq
      = Except.ok (NewDeadLetterQueue (0 : Int)) := by
  exact ⟨(C10_nonpositive_dlq_push_panics 0 (by decide)).1
    { id := 0, file := { path := "a" } } "boom" 0 1, rfl⟩

/-- A push on a queue of positive capacity never panics and preserves
the capacity. -/
theorem Push_ok_of_pos (q : DeadLetterQueue) (h : 1 ≤ q.maxSize)
    (t : Task) (e : String) (now att : Int) :
    ∃ q' d, q.Push t e now att = .ok q' d ∧ q'.maxSize = q.maxSize := by
  unfold DeadLetterQueue.Push
  by_cases hlen : (q.items.length : Int) ≥ q.maxSize
  · rw [if_pos hlen]
    rcases hi : q.items with _ | ⟨d0, rest⟩
    · exfalso
      rw [hi] at hlen
      simp only [List.length_nil, Nat.cast_zero] at hlen
      omega
    · exact ⟨_, _, rfl, rfl⟩
  · rw [if_neg hlen]
    exact ⟨_, _, rfl, rfl⟩

/-- Processing any task result on a state whose dead-letter queue has
positive capacity succeeds and appends exactly one FileReview. -/
theorem processTaskResult_adds_one_review (now : Int) (s : PipelineState)
    (tr : TaskResult) (h : 1 ≤ s.dlq.maxSize) :
    ∃ s', processTaskResult now s tr = some s'
      ∧ s'.fileReviews.length = s.fileReviews.length + 1
      ∧ s'.dlq.maxSize = s.dlq.maxSize := by
  obtain ⟨tid, file, issuesOpt, errOpt, retry, skipped⟩ := tr
  cases errOpt with
  | none => exact ⟨_, rfl, by simp, rfl⟩
  | some e =>
    cases retry with
    | false => exact ⟨_, rfl, by simp, rfl⟩
    | true =>
      obtain ⟨q', d, hpush, hms⟩ :=
        Push_ok_of_pos s.dlq h { id := tid, file := file } e now 1
      refine ⟨{ result := s.result,
                fileReviews := s.fileReviews
                  ++ [{ file := file, issues := [], duration := 0,
                        error := e }],
                dlq := q', filesFailed := s.filesFailed + 1,
                filesRetried := s.filesRetried + 1 }, ?_, by simp, hms⟩
      unfold processTaskResult
      dsimp only
      rw [hpush]
      rfl

/-- Collecting any list of task results on a state whose dead-letter
queue has positive capacity succeeds and appends exactly one FileReview
per task result. -/
theorem collectResults_length (now : Int) :
    ∀ (trs : List TaskResult) (s : PipelineState), 1 ≤ s.dlq.maxSize →
      ∃ s', collectResults now s trs = some s'
        ∧ s'.fileReviews.length = s.fileReviews.length + trs.length
        ∧ s'.dlq.maxSize = s.dlq.maxSize := by
  intro trs
  induction trs with
  | nil => intro s h; exact ⟨s, rfl, by simp, rfl⟩
  | cons tr trs ih =>
    intro s h
    obtain ⟨s₁, h1, hl1, hm1⟩ := processTaskResult_adds_one_review now s tr h
    obtain ⟨s', h2, hl2, hm2⟩ := ih s₁ (by rw [hm1]; exact h)
    refine ⟨s', ?_, ?_, ?_⟩
    · simp only [collectResults, h1]
      exact h2
    · rw [hl2, hl1]
      simp only [List.length_cons]
      omega
    · rw [hm2, hm1]

/-- The worker copies the task id into its TaskResult unchanged. -/
theorem processTask_taskID (ctx : CtxStatus) (tid : Int) (f : FileInfo)
    (o : Except String (List Issue)) :
    (processTask ctx tid f o).taskID = tid := by
  cases ctx <;> cases o <;> rfl

/-- The worker copies the task's file into its TaskResult unchanged. -/
theorem processTask_file (ctx : CtxStatus) (tid : Int) (f : FileInfo)
    (o : Except String (List Issue)) :
    (processTask ctx tid f o).file = f := by
  cases ctx <;> cases o <;> rfl

/-- With a positive batch size, the batched submission loop accepts
exactly one submission per file. -/
theorem submitTasksModel_length (batchSize : Nat) (hbs : 1 ≤ batchSize)
    (files : List FileInfo) :
    (submitTasksModel batchSize files).length = files.length := by
  have key : ∀ (n : Nat) (l : List FileInfo), l.length ≤ n →
      (submitTasksModel batchSize l).length = l.length := by
    intro n
    induction n with
    | zero =>
      intro l hl
      cases l with
      | nil => simp [submitTasksModel]
      | cons f rest => simp at hl
    | succ n ih =>
      intro l hl
      cases l with
      | nil => simp [submitTasksModel]
      | cons f rest =>
        simp only [submitTasksModel, List.length_append, List.enum_length]
        rw [ih (rest.drop (batchSize - 1))
          (by
            simp only [List.length_drop]
            simp only [List.length_cons] at hl
            omega)]
        simp only [List.length_take, List.length_drop, List.length_cons]
        omega
  exact key files.length files (Nat.le_refl _)

/-- C1 — for a completed run over `files` with a deterministic
reviewer, the program's positive submission batch size and a
dead-letter queue of positive capacity: collecting the delivered task
results (any permutation of the one-per-submission live-context worker
results — there is no ordering guarantee) succeeds and yields exactly
`files.length` FileReviews, one per submitted file whether its review
succeeded or errored; the batched submit loop accepts exactly one
submission per file; and the task results correspond one-to-one, in
submission order, to the accepted submissions, each carrying its
submission's (batch-local) task id and file. -/
theorem C1_one_file_review_per_file (batchSize : Nat)
    (reviewer : FileInfo → Except String (List Issue))
    (files : List FileInfo) (delivered : List TaskResult)
    (now dlqSize : Int)
    (hbs : 1 ≤ batchSize)
    (hperm : delivered.Perm (taskResultsOf batchSize reviewer files))
    (hdlq : 1 ≤ dlqSize) :
    (∃ s', collectResults now (initPipelineState dlqSize) delivered = some s'
      ∧ s'.fileReviews.length = files.length)
    ∧ (taskResultsOf batchSize reviewer files).length = files.length
    ∧ (taskResultsOf batchSize reviewer files).map
        (fun tr => (tr.taskID, tr.file))
      = (submitTasksModel batchSize files).map
          (fun p => (Int.ofNat p.1, p.2)) := by
  have hlen : (taskResultsOf batchSize reviewer files).length
      = files.length := by
    unfold taskResultsOf
    rw [List.length_map, submitTasksModel_length batchSize hbs]
  refine ⟨?_, hlen, ?_⟩
  · obtain ⟨s', h1, h2, _⟩ := collectResults_length now delivered
      (initPipelineState dlqSize)
      (by simpa [initPipelineState, NewDeadLetterQueue] using hdlq)
    refine ⟨s', h1, ?_⟩
    rw [h2, hperm.length_eq, hlen]
    simp [initPipelineState]
  · unfold taskResultsOf
    rw [List.map_map]
    have hcomp : ((fun tr : TaskResult => (tr.taskID, tr.file))
        ∘ fun p : Nat × FileInfo =>
          processTask .live (Int.ofNat p.1) p.2 (reviewer p.2))
        = fun p : Nat × FileInfo => (Int.ofNat p.1, p.2) := by
      funext p
      simp [Function.comp, processTask_taskID, processTask_file]
    rw [hcomp]

/-- C1 witness — the theorem at one file with the default pipeline's
batch size 8 (MaxWorkers 4), a reviewer that finds no issues, and
delivery in submission order. -/
theorem C1_one_file_review_per_file_witness :
    (∃ s', collectResults 0 (initPipelineState 1000)
        (taskResultsOf 8 (fun _ => Except.ok []) [{ path := "a" }]) = some s'
      ∧ s'.fileReviews.length = 1)
    ∧ (taskResultsOf 8 (fun _ => Except.ok []) [{ path := "a" }]).length = 1
    ∧ (taskResultsOf 8 (fun _ => Except.ok []) [{ path := "a" }]).map
        (fun tr => (tr.taskID, tr.file))
      = (submitTasksModel 8 [{ path := "a" }]).map
          (fun p => (Int.ofNat p.1, p.2)) := by
  exact C1_one_file_review_per_file 8 (fun _ => Except.ok [])
    [{ path := "a" }] _ 0 1000 (by decide) (List.Perm.refl _) (by decide)

end Scanr
